import Mathlib

/-!
Verification of the rparse parser-combinator engine against its specification.

Streams are shallowly embedded as lists of items (`&str`/`String` streams hold
`Item = char`; the embedding is generic in the item type). Every definition is
translated from the corresponding Rust source under `src/`, except for the few
declarations the repository's `error` module and newest `Parser` trait would
supply, which are absent from `src/` and are modelled from the spec; those are
marked `Modelled from the spec:` in their doc comments.
-/

namespace Rparse

/-! ## Positions (src/src/stream/position.rs) -/

/-- `IndexPosition::update` (position.rs:74-76): any item advances the index by one. -/
def indexUpdate (p : Nat) (_ : α) : Nat := p + 1

/-- `IndexPosition::update_range` (position.rs:78-80): advance by the range's length
(`self.0 += range.len()`; a range is a list of items, so `len` is its length). -/
def indexUpdateRange (p : Nat) (r : List α) : Nat := p + r.length

/-- `LinePosition` (position.rs:97-101): a 1-based line/column pair. -/
structure LinePosition where
  line : Nat
  column : Nat
deriving DecidableEq, Repr

/-- `LinePosition::update` (position.rs:122-129): a newline increments `line` and resets
`column` to 1; any other item increments `column`. -/
def lineUpdate (p : LinePosition) (c : Char) : LinePosition :=
  if c = '\n' then { line := p.line + 1, column := 1 }
  else { p with column := p.column + 1 }

/-- `LinePosition::update_range` (position.rs:131-135): update once per item of the range,
in order. -/
def lineUpdateRange (p : LinePosition) (r : List Char) : LinePosition :=
  r.foldl lineUpdate p

/-- Bundled per-item and per-range update rules of a `Position` implementation, used to
instantiate `State` streams at `IndexPosition` or `LinePosition`. -/
structure PositionOps (π α : Type) where
  update : π → α → π
  updateRange : π → List α → π

/-- `IndexPosition`'s update rules. -/
def indexOps : PositionOps Nat α := ⟨indexUpdate, indexUpdateRange⟩

/-- `LinePosition`'s update rules. -/
def lineOps : PositionOps LinePosition Char := ⟨lineUpdate, lineUpdateRange⟩

/-! ## Streams (src/src/stream/mod.rs, src/src/stream/state.rs)

A `&str` or `String` stream is embedded as the list of its remaining items. -/

/-- `<&str as Stream>::peek` (stream/mod.rs:141-143): `self.chars().next()`. -/
def strPeek (s : List α) : Option α := s.head?

/-- `<&str as Stream>::pop` (stream/mod.rs:145-155): return the first item and advance
past it; on an empty stream return `None` and leave the stream unchanged. -/
def strPop (s : List α) : Option α × List α :=
  match s with
  | [] => (none, [])
  | c :: rest => (some c, rest)

/-- `<&str as Stream>::range` (stream/mod.rs:161-167): `self.get(..idx)` yields the first
`idx` items when that many remain (else `None`), and the stream advances past them. -/
def strRange (s : List α) (idx : Nat) : Option (List α × List α) :=
  if idx ≤ s.length then some (s.take idx, s.drop idx) else none

/-- `<String as Stream>::peek` (stream/mod.rs:210-212): `self.chars().next()`. -/
def stringPeek (s : List α) : Option α := s.head?

/-- `<String as Stream>::pop` (stream/mod.rs:214-220): if empty return `None`, else
`self.remove(0)`. -/
def stringPop (s : List α) : Option α × List α :=
  if s.isEmpty then (none, s) else (s.head?, s.tail)

/-- Outcome of `<String as Stream>::range`: a fetched range plus the advanced stream, a
`None` return, or a `String::split_off` panic (out-of-bounds index). -/
inductive StringRangeResult (α : Type) where
  | found (range : List α) (rest : List α)
  | none
  | panics
deriving DecidableEq, Repr

/-- `<String as Stream>::range` (stream/mod.rs:226-233): `if self.len() > idx { return None }`,
then `self.split_off(idx)` + swap. The guard leaves `self.len() ≤ idx`, so `split_off`
panics whenever `self.len() < idx` and otherwise (`self.len() = idx`) returns the whole
stream, leaving the stream empty. -/
def stringRange (s : List α) (idx : Nat) : StringRangeResult α :=
  if s.length > idx then .none
  else if s.length = idx then .found (s.take idx) (s.drop idx)
  else .panics

/-- `State` (state.rs:5-9): an underlying stream plus a tracked position. -/
structure State (α π : Type) where
  stream : List α
  position : π
deriving DecidableEq, Repr

/-- `<State as Stream>::peek` (state.rs:59-61): delegate to the underlying stream; the
position is not consulted and nothing is consumed. -/
def statePeek (st : State α π) : Option α := strPeek st.stream

/-- `<State as Stream>::pop` (state.rs:63-68): pop the underlying stream and, when an item
comes back, update the position by it. -/
def statePop (ops : PositionOps π α) (st : State α π) : Option α × State α π :=
  match strPop st.stream with
  | (some item, rest) => (some item, ⟨rest, ops.update st.position item⟩)
  | (none, _) => (none, st)

/-- `<State as Stream>::range` (state.rs:74-81): fetch a range from the underlying stream
and update the position once per fetched token, in order. -/
def stateRange (ops : PositionOps π α) (st : State α π) (idx : Nat) :
    Option (List α × State α π) :=
  match strRange st.stream idx with
  | some (r, rest) => some (r, ⟨rest, r.foldl ops.update st.position⟩)
  | none => none

end Rparse

namespace Rparse

/-! ## Parse results and the committed entry point (src/src/parser/mod.rs) -/

/-- `ParseResult<S, O>` of the `parse_stream` API generation: the parse outcome paired
with the resulting stream (`(Ok(output) | Err(error), stream)`). -/
abbrev ParseResult (σ ε ο : Type) := Except ε ο × σ

/-- `Parser::parse` (parser/mod.rs:34-44): snapshot the stream via `backup()` (a clone),
run `parse_stream`, and on failure `restore` the snapshot into the returned stream.
Parsers of this API generation are embedded as result functions. -/
def parse (p : σ → ParseResult σ ε ο) (s : σ) : ParseResult σ ε ο :=
  match p s with
  | (Except.error e, _) => (Except.error e, s)
  | ok => ok

end Rparse

namespace Rparse

/-! ## Single-token parsers (src/src/parser/token.rs)

These parsers are written against the `Input` trait (`peek`/`pop`); the trait's
operations for a given stream kind are bundled in `StreamOps`. Their error type
comes from the repository's `error` module. -/

/-- Modelled from the spec: the `error` module is not under `src/`; its `Info` facts are
reconstructed from the spec's error taxonomy (§3, §7) and the constructors used in
`src/src/parser/token.rs` and `src/src/parser/mod.rs` (`Info::Token`, `Info::Description`). -/
inductive Info (α : Type) where
  | token (t : α)
  | description (msg : String)
deriving DecidableEq, Repr

/-- Modelled from the spec: the `error` module is not under `src/`; the `Error` variants are
reconstructed from the spec's taxonomy (§7: end-of-input, unexpected, expected facts) and
the constructors used in `src/` (`Error::EOF`, `Error::unexpected_token`, `Error::Expected`). -/
inductive Error (α : Type) where
  | eof
  | unexpected (i : Info α)
  | expected (i : Info α)
deriving DecidableEq, Repr

/-- `Error::unexpected_token`, as used by src/src/parser/mod.rs's tests. -/
def Error.unexpectedToken (t : α) : Error α := .unexpected (.token t)

/-- The `peek`/`pop` operations a stream kind supplies to the `Input`-trait parsers. -/
structure StreamOps (σ α : Type) where
  peek : σ → Option α
  pop : σ → Option α × σ

/-- `StreamOps` of the `&str` stream. -/
def strOps : StreamOps (List α) α := ⟨strPeek, strPop⟩

/-- `StreamOps` of the `String` stream. -/
def stringOps : StreamOps (List α) α := ⟨stringPeek, stringPop⟩

/-- `StreamOps` of a `State` stream over the given position rules. -/
def stateOps (ops : PositionOps π α) : StreamOps (State α π) α :=
  ⟨statePeek, statePop ops⟩

/-- `Any::parse_input` (token.rs:16-21): pop one item and return it; if the stream is
exhausted fail with `Error::Expected(Info::Description("a token"))`. -/
def anyParseInput (ops : StreamOps σ α) (s : σ) : ParseResult σ (Error α) α :=
  match ops.pop s with
  | (some t, s') => (Except.ok t, s')
  | (none, s') => (Except.error (Error.expected (Info.description "a token")), s')

/-- `Token::parse_input` (token.rs:38-47): peek; if the item equals the expected one, pop
and succeed; otherwise (mismatch or exhausted stream alike) fail with
`Error::Expected(Info::Token(expected))` without consuming. -/
def tokenParseInput [DecidableEq α] (ops : StreamOps σ α) (t : α) (s : σ) :
    ParseResult σ (Error α) α :=
  match ops.peek s with
  | some item =>
    if item = t then (Except.ok item, (ops.pop s).2)
    else (Except.error (Error.expected (Info.token t)), s)
  | none => (Except.error (Error.expected (Info.token t)), s)

/-- `Cond::parse_input` (token.rs:63-72): peek; if the predicate holds, pop and succeed;
otherwise (predicate false or exhausted stream alike) fail with
`Error::Expected(Info::Description("condition not met"))` without consuming. -/
def condParseInput (ops : StreamOps σ α) (f : α → Bool) (s : σ) :
    ParseResult σ (Error α) α :=
  match ops.peek s with
  | some t =>
    if f t then (Except.ok t, (ops.pop s).2)
    else (Except.error (Error.expected (Info.description "condition not met")), s)
  | none => (Except.error (Error.expected (Info.description "condition not met")), s)

/-! ## Repetition (src/src/parser/combinator/many.rs) -/

/-- The loop of `Many::parse_stream` (many.rs:22-45): repeatedly run `p.parse`; on success
push the output and continue; on failure propagate the error when fewer than `mn`
iterations succeeded, else succeed with the accumulated outputs and the stream `p.parse`
returned (which `p.parse` restored to just before the failing attempt). The Rust loop is
unbounded; `fuel` bounds it here, and `none` marks fuel exhaustion (the source loops
forever exactly when no fuel suffices). -/
def manyLoop (p : σ → ParseResult σ ε ο) (mn : Nat) :
    Nat → List ο → Nat → σ → Option (ParseResult σ ε (List ο))
  | 0, _, _, _ => none
  | fuel + 1, output, i, s =>
    match parse p s with
    | (Except.ok r, rest) => manyLoop p mn fuel (output ++ [r]) (i + 1) rest
    | (Except.error e, rest) =>
      if i < mn then some (Except.error e, rest)
      else some (Except.ok output, rest)

/-- `many(p)` (many.rs:48-58): zero or more repetitions (`min = 0`). -/
def many (p : σ → ParseResult σ ε ο) (fuel : Nat) (s : σ) :
    Option (ParseResult σ ε (List ο)) :=
  manyLoop p 0 fuel [] 0 s

/-- `many1(p)` (many.rs:60-70): one or more repetitions (`min = 1`). -/
def many1 (p : σ → ParseResult σ ε ο) (fuel : Nat) (s : σ) :
    Option (ParseResult σ ε (List ο)) :=
  manyLoop p 1 fuel [] 0 s

end Rparse

namespace Rparse

/-! ## Range-literal matching (src/src/parser/range.rs)

`Range::parse_lazy` is written against the `parse_lazy` API generation, whose
failures are `Errors` values (a position plus a list of `Error` facts, built by
`Stream::err` in src/src/stream/mod.rs:89-92). -/

/-- Error facts of the `parse_lazy` API generation, as constructed in
src/src/parser/range.rs (`Error::eoi`, `Error::unexpected_token`, `Error::expected_range`). -/
inductive ErrorN (α : Type) where
  | eoi
  | unexpectedToken (t : α)
  | expectedRange (r : List α)
deriving DecidableEq, Repr

/-- Modelled from the spec: the `Errors` container of the `error` module is not under
`src/`; from its uses there (`Errors::from_error(position, error)` in stream/mod.rs:90-92,
the mutable `errors.position` field in range.rs:40-42) it is a position plus a list of
error facts. -/
structure Errors (α π : Type) where
  position : π
  errors : List (ErrorN α)
deriving DecidableEq, Repr

/-- The `find` over `range.tokens().zip(self.range.tokens()).enumerate()` in
range.rs:23-27: the first index at which the fetched items diverge from the literal,
together with the fetched (left) item there. -/
def firstMismatch [DecidableEq α] : List α → List α → Option (Nat × α)
  | x :: xs, y :: ys =>
    if x ≠ y then some (0, x)
    else (firstMismatch xs ys).map fun p => (p.1 + 1, p.2)
  | _, _ => none

/-- `Range::parse_lazy` (range.rs:15-44): fetch `literal.len()` items as a range; if they
equal the literal succeed; if they differ, take the first divergence index `i`, advance a
copy of the start position over the first `i` fetched items (`range.range(i).unwrap()`
then `start_pos.update_range`), and fail with `Error::unexpected_token(left)`; if the
fetch (or the zip) comes up short fail with `Error::eoi()`. The trailing
`errors.position = start_pos` override of range.rs:40-42 is folded into each error
branch (the position `Stream::err` stamped is overwritten unconditionally). -/
def rangeParseLazy [DecidableEq α] (ops : PositionOps π α) (literal : List α)
    (st : State α π) : ParseResult (State α π) (Errors α π) (List α) :=
  -- `idx = self.range.len()` and `start_pos = stream.position()` are inlined below as
  -- `literal.length` and `st.position`.
  match stateRange ops st literal.length with
  | some (r, st1) =>
    if r = literal then (Except.ok r, st1)
    else
      match firstMismatch r literal with
      | some (i, left) =>
        (Except.error ⟨ops.updateRange st.position (r.take i), [ErrorN.unexpectedToken left]⟩,
          st1)
      | none => (Except.error ⟨st.position, [ErrorN.eoi]⟩, st1)
  | none => (Except.error ⟨st.position, [ErrorN.eoi]⟩, st)

end Rparse

namespace Rparse

/-! ## Choice (src/src/parser/choice.rs)

`Or` is written against the newest API generation: `parse_lazy` returns
`Result<(Option<Output>, Stream), (Errors, Stream)>` (`Ok(None)` is the NoMatch
outcome), parsers may declare a static expected-error, and the committed entry
point installs that static expectation over a dynamic failure's. The trait
machinery of this generation (`try_parse_lazy`, the committed `parse`,
`Expected`/`merge_one_of`) is not under `src/` and is modelled from the spec
(§4.2, §4.3, §4.6) and from `Attempt::parse_lazy` in src/src/parser/combinator.rs. -/

/-- Expectation facts of the newest API generation, as used by choice.rs's tests
(`Info::Item`, `Info::Msg`, `Info::Range`). -/
inductive CInfo (α : Type) where
  | item (t : α)
  | msg (m : String)
  | range (r : List α)
deriving DecidableEq, Repr

/-- Modelled from the spec: an `Expected<S>` value (error module, not under `src/`) — an
expectation set; a single fact is a singleton set and `ExpectedOneOf` is a larger one. -/
structure Expected (α : Type) where
  facts : List (CInfo α)
deriving DecidableEq, Repr

/-- The expectation set carried by an optional `Expected`, empty for `None`. -/
def expectedFacts : Option (Expected α) → List (CInfo α)
  | none => []
  | some e => e.facts

/-- Modelled from the spec: `Expected::merge_one_of` (§4.2, error module not under `src/`)
combines the expectation sets of the alternatives into their union; absent inputs
contribute nothing, and the merge is absent when no expectations remain. -/
def mergeOneOf (l : List (Option (Expected α))) : Option (Expected α) :=
  match (l.map expectedFacts).flatten with
  | [] => none
  | facts => some ⟨facts⟩

/-- The "unexpected" fact of a dynamic failure of the newest API generation
(`Error::eoi()`, `Error::item(..)`, unexpected ranges). -/
inductive CUnexpected (α : Type) where
  | eoi
  | item (t : α)
  | range (r : List α)
deriving DecidableEq, Repr

/-- Modelled from the spec: a positioned dynamic failure of the newest API generation
(error module not under `src/`): one optional "unexpected" fact, an optional expectation
set, and the Position at which the failure was detected (§3's Error model). -/
structure CErrors (α π : Type) where
  position : π
  unexpected : Option (CUnexpected α)
  expected : Option (Expected α)
deriving DecidableEq, Repr

/-- A parser of the newest API generation: `parse_lazy` (whose `Ok(None)` outcome is
NoMatch) plus the static expected-error of §4.3. -/
structure CParser (σ α π ο : Type) where
  parseLazy : σ → ParseResult σ (CErrors α π) (Option ο)
  expectedError : Option (Expected α)

/-- `Parser::try_parse_lazy`, modelled from the spec (§4.3's snapshot + auto-restore) and
from `Attempt::parse_lazy` (src/src/parser/combinator.rs:61-68): snapshot, run
`parse_lazy`, and on failure restore the snapshot into the returned stream. -/
def tryParseLazy (p : CParser σ α π ο) (s : σ) : ParseResult σ (CErrors α π) (Option ο) :=
  match p.parseLazy s with
  | (Except.error e, _) => (Except.error e, s)
  | ok => ok

/-- `Or::parse_lazy` / `Or::expected_error` (choice.rs:148-157): attempt `p1` with
snapshot/restore semantics; only if it failed (its error is discarded), run `p2` from the
restored stream. The static expected-error merges both alternatives' expectations. -/
def orParser (p q : CParser σ α π ο) : CParser σ α π ο where
  parseLazy := fun s =>
    match tryParseLazy p s with
    | (Except.ok r, s') => (Except.ok r, s')
    | (Except.error _, s') => q.parseLazy s'
  expectedError := mergeOneOf [p.expectedError, q.expectedError]

/-- `choice!` (choice.rs:188-196): `choice!(head) = head` and
`choice!(head, tail..) = head.or(choice!(tail..))`. -/
def choice : CParser σ α π ο → List (CParser σ α π ο) → CParser σ α π ο
  | p, [] => p
  | p, q :: qs => orParser p (choice q qs)

/-- Modelled from the spec: the committed `parse` of the newest API generation (§4.3) is
not under `src/`; it snapshots the stream, runs `parse_lazy`, and on failure restores
the snapshot and installs the parser's static expected-error in place of the dynamic
failure's expectation when one is declared (§4.3's static expected-error, with the
replacement behaviour choice.rs's tests exhibit). -/
def parseCommitted (p : CParser σ α π ο) (s : σ) :
    ParseResult σ (CErrors α π) (Option ο) :=
  match p.parseLazy s with
  | (Except.error e, _) =>
    (Except.error
      { e with
        expected :=
          match p.expectedError with
          | some exp => some exp
          | none => e.expected }, s)
  | ok => ok

/-- Modelled from the spec: the single-item parser `item(expected)` of the newest API
generation (§4.4, its module is not under `src/`): peek; on the expected item pop and
succeed; otherwise fail without consuming, with the mismatched item (or end-of-input) as
the unexpected fact; statically it expects exactly its item. -/
def itemParser [DecidableEq α] (ops : PositionOps π α) (t : α) :
    CParser (State α π) α π α where
  parseLazy := fun s =>
    match statePeek s with
    | some c =>
      if c = t then (Except.ok (some c), (statePop ops s).2)
      else (Except.error ⟨s.position, some (CUnexpected.item c), none⟩, s)
    | none => (Except.error ⟨s.position, some CUnexpected.eoi, none⟩, s)
  expectedError := some ⟨[CInfo.item t]⟩

end Rparse

namespace Rparse

/-! ## Concrete parsers used to exercise the theorems -/

/-- A parser that consumes one item and then fails; its failure leaves the stream
advanced, which makes the rollback performed by `parse` observable. -/
def consumeThenFail : State Char Nat → ParseResult (State Char Nat) String Char :=
  fun st => (Except.error "boom", (statePop indexOps st).2)

/-- A parser that always fails without consuming. -/
def alwaysFail : List Char → ParseResult (List Char) Nat Char :=
  fun s => (Except.error 7, s)

end Rparse

namespace Rparse

/-! ## Helper lemmas -/

/-- Whenever the committed `parse` fails, the stream it returns is the snapshot taken
before the attempt. -/
theorem parse_err_stream (p : σ → ParseResult σ ε ο) (s : σ) (e : ε) (s' : σ)
    (h : parse p s = (Except.error e, s')) : s' = s := by
  unfold parse at h
  rcases hp : p s with ⟨r, s₁⟩
  rw [hp] at h
  cases r with
  | error e₁ => simp only [Prod.mk.injEq] at h; exact h.2.symm
  | ok o => simp at h

/-- Unfolding of `parse` on a failing attempt. -/
theorem parse_of_err (p : σ → ParseResult σ ε ο) (s : σ) (e : ε) (s₁ : σ)
    (h : p s = (Except.error e, s₁)) : parse p s = (Except.error e, s) := by
  unfold parse
  rw [h]

/-! ## C1: backtracking purity of the committed entry point -/

/-- C1: for every parser `P` and stream `S`, if the committed entry point `P.parse(S)`
fails, the stream returned alongside the error is observably identical to `S` — same
remaining input and same Position (`parse` snapshots via `backup()`, runs the parser,
and restores the snapshot on failure). -/
theorem parse_backtracks_on_failure (p : State α π → ParseResult (State α π) ε ο)
    (s : State α π) (e : ε) (s' : State α π)
    (h : parse p s = (Except.error e, s')) :
    s'.stream = s.stream ∧ s'.position = s.position := by
  have hs := parse_err_stream p s e s' h
  subst hs
  exact ⟨rfl, rfl⟩

/-- Witness for C1: a parser that consumes one item of `"ab"` and then fails; `parse`
returns the error together with the original stream at position 0. -/
theorem parse_backtracks_on_failure_witness :
    parse consumeThenFail ⟨['a', 'b'], 0⟩ =
      (Except.error "boom", (⟨['a', 'b'], 0⟩ : State Char Nat)) ∧
    ((⟨['a', 'b'], 0⟩ : State Char Nat).stream = ['a', 'b'] ∧
      (⟨['a', 'b'], 0⟩ : State Char Nat).position = 0) :=
  ⟨rfl, parse_backtracks_on_failure consumeThenFail ⟨['a', 'b'], 0⟩ "boom" ⟨['a', 'b'], 0⟩ rfl⟩

/-! ## C5: many / many1 minimum-count semantics -/

/-- C5: when the inner parser's attempt at the current stream fails, `many(p)` (minimum
0) succeeds with the empty accumulation and zero consumption, `many1(p)` (minimum 1)
propagates the failure with zero consumption, and in general the repetition loop, at a
failing attempt, succeeds with the accumulated outputs and the stream rolled back to
just before the failing attempt when the accumulated count has reached the minimum, and
propagates the failure with that same rolled-back stream when it has not. -/
theorem many_min_semantics (p : σ → ParseResult σ ε ο) (s : σ) (e : ε)
    (h : (p s).1 = Except.error e) :
    (∀ fuel, many p (fuel + 1) s = some (Except.ok [], s)) ∧
    (∀ fuel, many1 p (fuel + 1) s = some (Except.error e, s)) ∧
    (∀ mn output i fuel, mn ≤ i →
      manyLoop p mn (fuel + 1) output i s = some (Except.ok output, s)) ∧
    (∀ mn output i fuel, i < mn →
      manyLoop p mn (fuel + 1) output i s = some (Except.error e, s)) := by
  rcases hp : p s with ⟨r, s₁⟩
  rw [hp] at h
  simp only at h
  subst h
  have hparse : parse p s = (Except.error e, s) := parse_of_err p s e s₁ hp
  refine ⟨?_, ?_, ?_, ?_⟩
  · intro fuel
    unfold many manyLoop
    rw [hparse]
    simp
  · intro fuel
    unfold many1 manyLoop
    rw [hparse]
    simp
  · intro mn output i fuel hmin
    unfold manyLoop
    rw [hparse]
    simp [Nat.not_lt.mpr hmin]
  · intro mn output i fuel hlt
    unfold manyLoop
    rw [hparse]
    simp [hlt]

/-- Witness for C5: a parser that never succeeds, applied through `many` and `many1` on
the stream `"a"` — `many` yields the empty result with zero consumption, `many1` yields
the parser's failure with zero consumption. -/
theorem many_min_semantics_witness :
    (alwaysFail ['a']).1 = Except.error 7 ∧
    many alwaysFail 1 ['a'] = some (Except.ok [], ['a']) ∧
    many1 alwaysFail 1 ['a'] = some (Except.error 7, ['a']) :=
  ⟨rfl, (many_min_semantics alwaysFail ['a'] 7 rfl).1 0,
    (many_min_semantics alwaysFail ['a'] 7 rfl).2.1 0⟩

end Rparse

namespace Rparse

/-! ## C6: the range(n) stream operation -/

/-- C6 (code bug): the `&str` implementation of `Stream::range` honours the contract —
on `"abc"`, `range(1)` yields the next item and advances — but the `String`
implementation's inverted guard (`if self.len() > idx { return None }`,
stream/mod.rs:227) makes it return `None` on the very same input even though at least
`n` items remain; it can only ever succeed when `n` equals the entire remaining length. -/
theorem stringRange_inverted_guard :
    strRange (['a', 'b', 'c'] : List Char) 1 = some (['a'], ['b', 'c']) ∧
    stringRange (['a', 'b', 'c'] : List Char) 1 = StringRangeResult.none ∧
    1 ≤ (['a', 'b', 'c'] : List Char).length ∧
    stringRange (['a', 'b', 'c'] : List Char) 3 =
      StringRangeResult.found ['a', 'b', 'c'] [] := by
  refine ⟨?_, ?_, ?_, ?_⟩ <;> decide

/-! ## C7: per-range position update equals the fold of per-item updates -/

/-- C7: for both Position implementations, updating by a range is observationally equal
to updating once per item of the range, in order — `IndexPosition::update_range` adds
the range's length, which is the fold of adding one; `LinePosition::update_range` is
that fold verbatim. -/
theorem update_range_eq_fold_update :
    (∀ (p : Nat) (r : List α), indexUpdateRange p r = r.foldl indexUpdate p) ∧
    (∀ (p : LinePosition) (r : List Char), lineUpdateRange p r = r.foldl lineUpdate p) := by
  constructor
  · intro p r
    induction r generalizing p with
    | nil => simp [indexUpdateRange]
    | cons x xs ih =>
      rw [List.foldl_cons, ← ih]
      unfold indexUpdateRange indexUpdate
      simp
      omega
  · intro p r
    rfl

/-! ## C9: peek / pop coherence -/

/-- C9: for the `&str`, `String` and `State` stream implementations, `peek` returns
exactly the item the next `pop` would return (`None` exactly when `pop` would return
`None`). `peek` takes the stream by shared reference in every implementation
(stream/mod.rs:141, 210; state.rs:59), so it is embedded as a pure function of the
stream and cannot change the remaining input or the Position. -/
theorem peek_pop_coherent :
    (∀ (s : List α), strPeek s = (strPop s).1) ∧
    (∀ (s : List α), stringPeek s = (stringPop s).1) ∧
    (∀ (ops : PositionOps π α) (st : State α π), statePeek st = (statePop ops st).1) ∧
    (∀ (s : List α), strPeek s = none ↔ (strPop s).1 = none) ∧
    (∀ (s : List α), stringPeek s = none ↔ (stringPop s).1 = none) ∧
    (∀ (ops : PositionOps π α) (st : State α π),
      statePeek st = none ↔ (statePop ops st).1 = none) := by
  have hstr : ∀ (s : List α), strPeek s = (strPop s).1 := by
    intro s
    cases s <;> rfl
  have hstring : ∀ (s : List α), stringPeek s = (stringPop s).1 := by
    intro s
    cases s <;> rfl
  have hstate : ∀ (ops : PositionOps π α) (st : State α π),
      statePeek st = (statePop ops st).1 := by
    intro ops st
    rcases st with ⟨s, pos⟩
    cases s <;> rfl
  exact ⟨hstr, hstring, hstate, fun s => by rw [hstr], fun s => by rw [hstring],
    fun ops st => by rw [hstate]⟩

end Rparse

namespace Rparse

/-! ## C8: the any() primitive -/

/-- Counterexample for C8: on an exhausted stream, `any()` does not fail with an
`EndOfInput` error — it fails with `Error::Expected(Info::Description("a token"))`
(token.rs:19), which is a different `Error` value than `Error::EOF`. -/
theorem any_eof_error_is_not_EndOfInput :
    anyParseInput strOps ([] : List Char) =
      (Except.error (Error.expected (Info.description "a token")), []) ∧
    (Error.expected (Info.description "a token") : Error Char) ≠ Error.eof :=
  ⟨rfl, fun h => Error.noConfusion h⟩

/-- C8 (amended): for every stream, `any()` pops and returns the next item when one
exists, and when the stream is exhausted it fails with the expected-a-token description
error `Error::Expected(Info::Description("a token"))` (not `EndOfInput`). -/
theorem any_pops_or_fails (ops : StreamOps σ α) (s : σ) :
    (∀ t s', ops.pop s = (some t, s') → anyParseInput ops s = (Except.ok t, s')) ∧
    (∀ s', ops.pop s = (none, s') →
      anyParseInput ops s =
        (Except.error (Error.expected (Info.description "a token")), s')) := by
  constructor
  · intro t s' h
    unfold anyParseInput
    rw [h]
  · intro s' h
    unfold anyParseInput
    rw [h]

/-- Witness for C8's amended claim: `any()` pops `'a'` from `"ab"`, and fails with the
expected-a-token description on the empty stream. -/
theorem any_pops_or_fails_witness :
    (strOps.pop (['a', 'b'] : List Char) = (some 'a', ['b']) ∧
      anyParseInput strOps (['a', 'b'] : List Char) = (Except.ok 'a', ['b'])) ∧
    (strOps.pop ([] : List Char) = (none, []) ∧
      anyParseInput strOps ([] : List Char) =
        (Except.error (Error.expected (Info.description "a token")), [])) :=
  ⟨⟨rfl, (any_pops_or_fails strOps ['a', 'b']).1 'a' ['b'] rfl⟩,
    ⟨rfl, (any_pops_or_fails strOps []).2 [] rfl⟩⟩

/-! ## C10: token / cond on an exhausted stream -/

/-- C10: `token(t)` (and likewise `cond(f)`) applied to an exhausted stream fails with
the very same `Expected(Info::Token(t))` (respectively expected-description) error it
produces on a content mismatch — not with an end-of-input error — and consumes nothing,
returning the stream unchanged (the `_` arm of token.rs:44 and token.rs:69 covers both
the `None` peek and the mismatch). -/
theorem token_cond_exhausted_as_mismatch [DecidableEq α] (ops : StreamOps σ α)
    (t : α) (f : α → Bool) (s : σ) :
    (ops.peek s = none →
      tokenParseInput ops t s = (Except.error (Error.expected (Info.token t)), s)) ∧
    (∀ c, ops.peek s = some c → c ≠ t →
      tokenParseInput ops t s = (Except.error (Error.expected (Info.token t)), s)) ∧
    (ops.peek s = none →
      condParseInput ops f s =
        (Except.error (Error.expected (Info.description "condition not met")), s)) ∧
    (∀ c, ops.peek s = some c → f c = false →
      condParseInput ops f s =
        (Except.error (Error.expected (Info.description "condition not met")), s)) := by
  refine ⟨?_, ?_, ?_, ?_⟩
  · intro h
    unfold tokenParseInput
    rw [h]
  · intro c h hne
    unfold tokenParseInput
    rw [h]
    simp [hne]
  · intro h
    unfold condParseInput
    rw [h]
  · intro c h hf
    unfold condParseInput
    rw [h]
    simp [hf]

/-- Witness for C10: `token('a')` fails with `Expected(Token('a'))` both on the empty
stream and on the mismatching stream `"b"`, leaving each stream unchanged; `cond` with
an always-false predicate does the same with its description error. -/
theorem token_cond_exhausted_as_mismatch_witness :
    (strOps.peek ([] : List Char) = none ∧
      tokenParseInput strOps 'a' ([] : List Char) =
        (Except.error (Error.expected (Info.token 'a')), [])) ∧
    (strOps.peek (['b'] : List Char) = some 'b' ∧
      tokenParseInput strOps 'a' (['b'] : List Char) =
        (Except.error (Error.expected (Info.token 'a')), ['b'])) ∧
    (condParseInput strOps (fun _ => false) ([] : List Char) =
        (Except.error (Error.expected (Info.description "condition not met")), []) ∧
      condParseInput strOps (fun _ => false) (['b'] : List Char) =
        (Except.error (Error.expected (Info.description "condition not met")), ['b'])) :=
  ⟨⟨rfl, (token_cond_exhausted_as_mismatch strOps 'a' (fun _ => false) []).1 rfl⟩,
    ⟨rfl, (token_cond_exhausted_as_mismatch strOps 'a' (fun _ => false) ['b']).2.1 'b' rfl
      (by decide)⟩,
    ⟨(token_cond_exhausted_as_mismatch strOps 'a' (fun _ => false) []).2.2.1 rfl,
      (token_cond_exhausted_as_mismatch strOps 'a' (fun _ => false) ['b']).2.2.2 'b' rfl
        rfl⟩⟩

end Rparse

namespace Rparse

/-! ## C2: range-literal divergence location -/

/-- Two lists of equal length that are not equal have a first mismatch. -/
theorem firstMismatch_of_ne [DecidableEq α] :
    ∀ (r l : List α), r.length = l.length → r ≠ l →
      ∃ km, firstMismatch r l = some km := by
  intro r
  induction r with
  | nil =>
    intro l hlen hne
    cases l with
    | nil => exact absurd rfl hne
    | cons y ys => simp at hlen
  | cons x xs ih =>
    intro l hlen hne
    cases l with
    | nil => simp at hlen
    | cons y ys =>
      by_cases hxy : x = y
      · subst hxy
        have hne' : xs ≠ ys := fun h => hne (by rw [h])
        obtain ⟨km, hkm⟩ := ih ys (by simpa using hlen) hne'
        refine ⟨(km.1 + 1, km.2), ?_⟩
        simp [firstMismatch, hkm]
      · exact ⟨(0, x), by simp [firstMismatch, hxy]⟩

/-- The first mismatch of `r` against `l` names the item of `r` at that index, an index
where `l` disagrees, and the two lists agree on everything before it. -/
theorem firstMismatch_spec [DecidableEq α] :
    ∀ (r l : List α) (k : Nat) (m : α), firstMismatch r l = some (k, m) →
      r.get? k = some m ∧ l.get? k ≠ some m ∧ r.take k = l.take k := by
  intro r
  induction r with
  | nil =>
    intro l k m h
    cases l <;> simp [firstMismatch] at h
  | cons x xs ih =>
    intro l k m h
    cases l with
    | nil => simp [firstMismatch] at h
    | cons y ys =>
      by_cases hxy : x = y
      · rw [firstMismatch, if_neg (by simp [hxy])] at h
        rcases hfm : firstMismatch xs ys with _ | ⟨k', m'⟩
        · rw [hfm] at h
          simp at h
        · rw [hfm] at h
          simp only [Option.map_some', Option.some.injEq, Prod.mk.injEq] at h
          obtain ⟨hk, hm⟩ := h
          subst hk
          subst hm
          obtain ⟨h1, h2, h3⟩ := ih ys k' m' hfm
          subst hxy
          refine ⟨by simpa using h1, by simpa using h2, by simp [h3]⟩
      · rw [firstMismatch, if_pos hxy] at h
        simp only [Option.some.injEq, Prod.mk.injEq] at h
        obtain ⟨hk, hm⟩ := h
        subst hk
        subst hm
        exact ⟨rfl, by simpa using fun h => hxy h.symm, rfl⟩

/-- C2: whenever the stream can supply `literal.len()` items but they differ from the
literal, `Range::parse_lazy` fails with `UnexpectedItem(m)` where `m` is the fetched item
at the first divergence index `k`, and the error's Position is the start Position updated
over exactly the first `k` matched items (which coincide with `literal`'s first `k`
items) — not the start Position itself. -/
theorem range_reports_first_divergence [DecidableEq α] (ops : PositionOps π α)
    (literal : List α) (st : State α π)
    (hlen : literal.length ≤ st.stream.length)
    (hne : st.stream.take literal.length ≠ literal) :
    ∃ k m,
      firstMismatch (st.stream.take literal.length) literal = some (k, m) ∧
      (st.stream.take literal.length).get? k = some m ∧
      literal.get? k ≠ some m ∧
      (st.stream.take literal.length).take k = literal.take k ∧
      rangeParseLazy ops literal st =
        (Except.error
            ⟨ops.updateRange st.position (literal.take k), [ErrorN.unexpectedToken m]⟩,
          ⟨st.stream.drop literal.length,
            (st.stream.take literal.length).foldl ops.update st.position⟩) := by
  have hrl : (st.stream.take literal.length).length = literal.length := by
    simp [List.length_take]
    omega
  obtain ⟨⟨k, m⟩, hkm⟩ := firstMismatch_of_ne _ _ hrl hne
  obtain ⟨h1, h2, h3⟩ := firstMismatch_spec _ _ _ _ hkm
  refine ⟨k, m, hkm, h1, h2, h3, ?_⟩
  unfold rangeParseLazy stateRange strRange
  rw [if_pos hlen]
  simp only
  rw [if_neg hne, hkm]
  simp only
  rw [h3]

/-- Witness for C2: matching literal `"def"` against input `"deg"` under `IndexPosition`
fails with `UnexpectedItem('g')` at index 2 (the Position after the 2 matched items), not
at the start index 0. -/
theorem range_reports_first_divergence_witness :
    (rangeParseLazy (indexOps (α := Char)) ['d', 'e', 'f'] ⟨['d', 'e', 'g'], 0⟩ =
        (Except.error ⟨2, [ErrorN.unexpectedToken 'g']⟩,
          (⟨[], 3⟩ : State Char Nat)) ∧
      (2 : Nat) ≠ 0) ∧
    (∃ k m,
      firstMismatch ((['d', 'e', 'g'] : List Char).take (['d', 'e', 'f'] : List Char).length)
          ['d', 'e', 'f'] = some (k, m) ∧
      ((['d', 'e', 'g'] : List Char).take (['d', 'e', 'f'] : List Char).length).get? k =
        some m ∧
      (['d', 'e', 'f'] : List Char).get? k ≠ some m ∧
      ((['d', 'e', 'g'] : List Char).take (['d', 'e', 'f'] : List Char).length).take k =
        (['d', 'e', 'f'] : List Char).take k ∧
      rangeParseLazy indexOps ['d', 'e', 'f'] ⟨['d', 'e', 'g'], 0⟩ =
        (Except.error
            ⟨indexOps.updateRange 0 ((['d', 'e', 'f'] : List Char).take k),
              [ErrorN.unexpectedToken m]⟩,
          ⟨(['d', 'e', 'g'] : List Char).drop (['d', 'e', 'f'] : List Char).length,
            ((['d', 'e', 'g'] : List Char).take
                (['d', 'e', 'f'] : List Char).length).foldl indexOps.update 0⟩)) :=
  ⟨⟨rfl, by decide⟩,
    range_reports_first_divergence indexOps ['d', 'e', 'f'] ⟨['d', 'e', 'g'], 0⟩
      (by decide) (by decide)⟩

end Rparse

namespace Rparse

/-! ## C3: associativity of or, and choice as a right-fold -/

/-- The expectation set of a merge is the concatenation of its inputs' sets. -/
theorem expectedFacts_mergeOneOf (l : List (Option (Expected α))) :
    expectedFacts (mergeOneOf l) = (l.map expectedFacts).flatten := by
  unfold mergeOneOf
  rcases h : (l.map expectedFacts).flatten with _ | ⟨x, xs⟩ <;> simp [expectedFacts]

/-- Merging is determined by the concatenation of the inputs' expectation sets. -/
theorem mergeOneOf_congr (l₁ l₂ : List (Option (Expected α)))
    (h : (l₁.map expectedFacts).flatten = (l₂.map expectedFacts).flatten) :
    mergeOneOf l₁ = mergeOneOf l₂ := by
  unfold mergeOneOf
  rw [h]

/-- C3: for parsers of the same stream and output types, `or(or(a, b), c)` and
`or(a, or(b, c))` behave identically — the same `parse_lazy` outcome and resulting
stream on every input (hence the same success output, and on failure the same error
and restored stream), the same merged static expectation, and hence the same committed
`parse` result — and the variadic `choice!` over a non-empty list of parsers is the
right-fold of binary `or` over them. -/
theorem or_assoc_choice_fold (a b c : CParser σ α π ο) :
    (∀ s, (orParser (orParser a b) c).parseLazy s =
      (orParser a (orParser b c)).parseLazy s) ∧
    (orParser (orParser a b) c).expectedError = (orParser a (orParser b c)).expectedError ∧
    (∀ s, parseCommitted (orParser (orParser a b) c) s =
      parseCommitted (orParser a (orParser b c)) s) ∧
    (∀ (p q : CParser σ α π ο) (qs : List (CParser σ α π ο)),
      choice p (qs ++ [q]) = (p :: qs).foldr orParser q) := by
  have hstep : ∀ (p q : CParser σ α π ο) (s : σ),
      (orParser p q).parseLazy s =
        match p.parseLazy s with
        | (Except.ok r, s') => (Except.ok r, s')
        | (Except.error _, _) => q.parseLazy s := by
    intro p q s
    simp only [orParser, tryParseLazy]
    rcases hp : p.parseLazy s with ⟨r, s'⟩
    cases r <;> rfl
  have hlazy : ∀ s, (orParser (orParser a b) c).parseLazy s =
      (orParser a (orParser b c)).parseLazy s := by
    intro s
    rw [hstep (orParser a b) c s, hstep a (orParser b c) s, hstep a b s, hstep b c s]
    rcases ha : a.parseLazy s with ⟨ra, sa⟩
    cases ra <;> rfl
  have hexp : (orParser (orParser a b) c).expectedError =
      (orParser a (orParser b c)).expectedError := by
    simp only [orParser]
    apply mergeOneOf_congr
    simp [expectedFacts_mergeOneOf]
  refine ⟨hlazy, hexp, ?_, ?_⟩
  · intro s
    unfold parseCommitted
    rw [hlazy s, hexp]
  · intro p q qs
    induction qs generalizing p with
    | nil => rfl
    | cons x xs ih =>
      show orParser p (choice x (xs ++ [q])) = orParser p ((x :: xs).foldr orParser q)
      rw [ih x]

/-! ## C4: choice merges the alternatives' expectations -/

/-- C4: when a two-alternative choice fails (both alternatives failed from the same
starting stream, the second from the restored snapshot), the committed result's
expectation set is exactly the union of the alternatives' expectation sets, and the
stream is restored. -/
theorem or_expectation_union (p q : CParser σ α π ο) (ea eb : Expected α) (s s' : σ)
    (e : CErrors α π)
    (hp : p.expectedError = some ea) (hq : q.expectedError = some eb)
    (hne : ea.facts ≠ [])
    (hfail : parseCommitted (orParser p q) s = (Except.error e, s')) :
    e.expected = some ⟨ea.facts ++ eb.facts⟩ ∧ s' = s := by
  have hexp : (orParser p q).expectedError = some ⟨ea.facts ++ eb.facts⟩ := by
    simp only [orParser, mergeOneOf, hp, hq, List.map, expectedFacts, List.flatten]
    rcases hea : ea.facts with _ | ⟨x, xs⟩
    · exact absurd hea hne
    · simp
  unfold parseCommitted at hfail
  rcases hl : (orParser p q).parseLazy s with ⟨r, s₁⟩
  rw [hl] at hfail
  cases r with
  | ok o => simp at hfail
  | error e₀ =>
    rw [hexp] at hfail
    simp only [Prod.mk.injEq, Except.error.injEq] at hfail
    obtain ⟨he, hs⟩ := hfail
    subst he
    exact ⟨rfl, hs.symm⟩

/-- Witness for C4: `choice!(item('a'), item('b'))` against input starting with `'c'`
fails with an error whose expectation set is exactly `{a, b}` — both branches'
expectations, not only one — and the stream is left untouched. -/
theorem or_expectation_union_witness :
    parseCommitted (orParser (itemParser (indexOps (α := Char)) 'a')
        (itemParser indexOps 'b')) ⟨['c'], 0⟩ =
      (Except.error
          ⟨0, some (CUnexpected.item 'c'),
            some ⟨[CInfo.item 'a', CInfo.item 'b']⟩⟩,
        (⟨['c'], 0⟩ : State Char Nat)) ∧
    ((⟨0, some (CUnexpected.item 'c'), some ⟨[CInfo.item 'a', CInfo.item 'b']⟩⟩ :
        CErrors Char Nat).expected = some ⟨[CInfo.item 'a'] ++ [CInfo.item 'b']⟩ ∧
      (⟨['c'], 0⟩ : State Char Nat) = ⟨['c'], 0⟩) :=
  ⟨rfl,
    or_expectation_union (itemParser indexOps 'a') (itemParser indexOps 'b')
      ⟨[CInfo.item 'a']⟩ ⟨[CInfo.item 'b']⟩ ⟨['c'], 0⟩ ⟨['c'], 0⟩
      ⟨0, some (CUnexpected.item 'c'), some ⟨[CInfo.item 'a', CInfo.item 'b']⟩⟩
      rfl rfl (by simp) rfl⟩

end Rparse
